import Mathlib

/-!
Verification of the SAASview multi-tenant timezone analytics service.

The development shallowly embeds the parts of the repository that the
claims concern:

* the classification columns of the analysis view
  `dws_orders_analysis_view` (sql/03_analysis_view.sql),
* the inline classification SQL of `TimezoneService.CompareTimezones`
  and its Go loop (go/services/timezone_service.go),
* the aggregation queries `getOrderSummary`, `getTimezoneStats`,
  `getTopMerchants` of the same service,
* `GetTimezoneDemo` with its day-boundary bookkeeping and
  `parseTimezoneOffset`,
* the `NullTime` JSON codec (go/models/models.go).

Timestamps with time zone are embedded as seconds since the Unix epoch
(`Int`); `AT TIME ZONE z` adds the zone's UTC offset (in seconds) for
that instant, and the `::date` cast floors to a day number, which is
rendered as a proleptic Gregorian (year, month, day) triple.  Monetary
amounts (`DECIMAL(15,2)`) are embedded exactly as integer cents, and
SQL `AVG` as an exact rational.
-/

/-- Weekend test of the analysis view (sql/03_analysis_view.sql):
`EXTRACT(DOW FROM t.order_time_local) IN (0,6)`, with the 0=Sunday
day-of-week convention of `EXTRACT(DOW ...)`. -/
def is_weekend (dow : Nat) : Bool :=
  decide (dow = 0 ∨ dow = 6)

/-- Business-hour test of the analysis view (sql/03_analysis_view.sql):
`EXTRACT(DOW ...) BETWEEN 1 AND 5 AND EXTRACT(HOUR ...) BETWEEN 9 AND 18`,
i.e. Monday-Friday with local hour in 9..18 (the 09:00-18:59 window). -/
def is_business_hour (dow hour : Nat) : Bool :=
  decide ((1 ≤ dow ∧ dow ≤ 5) ∧ (9 ≤ hour ∧ hour ≤ 18))

/-- Weekend test of the inline SQL in `TimezoneService.CompareTimezones`
(go/services/timezone_service.go): `EXTRACT(dow FROM ...) IN (0, 6)`. -/
def compare_is_weekend (dow : Nat) : Bool :=
  decide (dow = 0 ∨ dow = 6)

/-- Business-hour test of the inline SQL in
`TimezoneService.CompareTimezones` (go/services/timezone_service.go):
`EXTRACT(hour FROM ...) BETWEEN 9 AND 17`.  The source expression
mentions only the hour; it carries no day-of-week condition. -/
def compare_is_business_hour (hour : Nat) : Bool :=
  decide (9 ≤ hour ∧ hour ≤ 17)

/-- The hour-difference computation of `CompareTimezones`
(go/services/timezone_service.go):
`hourDiff := item.Hour - utcTime.Hour(); if hourDiff > 12 { hourDiff -= 24 }
else if hourDiff < -12 { hourDiff += 24 }`. -/
def hourDiff (localHour utcHour : Int) : Int :=
  if localHour - utcHour > 12 then localHour - utcHour - 24
  else if localHour - utcHour < -12 then localHour - utcHour + 24
  else localHour - utcHour

/-- Days since 1970-01-01 of a proleptic Gregorian date (the civil-date
arithmetic underlying the `timestamptz` embedding). -/
def daysFromCivil (y : Int) (m d : Nat) : Int :=
  let y' : Int := if m ≤ 2 then y - 1 else y
  let era : Int := y'.fdiv 400
  let yoe : Nat := (y' - era * 400).toNat
  let mp : Nat := (m + 9) % 12
  let doy : Nat := (153 * mp + 2) / 5 + d - 1
  let doe : Nat := yoe * 365 + yoe / 4 - yoe / 100 + doy
  era * 146097 + (doe : Int) - 719468

/-- Proleptic Gregorian (year, month, day) of a day count since
1970-01-01; inverse of `daysFromCivil`. -/
def civilFromDays (z : Int) : Int × Nat × Nat :=
  let z' : Int := z + 719468
  let era : Int := z'.fdiv 146097
  let doe : Nat := (z' - era * 146097).toNat
  let yoe : Nat := (doe - doe / 1460 + doe / 36524 - doe / 146096) / 365
  let y : Int := (yoe : Int) + era * 400
  let doy : Nat := doe - (365 * yoe + yoe / 4 - yoe / 100)
  let mp : Nat := (5 * doy + 2) / 153
  let d : Nat := doy - (153 * mp + 2) / 5 + 1
  let m : Nat := if mp < 10 then mp + 3 else mp - 9
  (y + (if m ≤ 2 then 1 else 0), m, d)

/-- The `local_date` column of the analysis view
(sql/03_analysis_view.sql):
`(o.order_time_utc AT TIME ZONE m.timezone)::date`.  `AT TIME ZONE` adds
the zone's UTC offset at that instant and `::date` floors the resulting
local wall-clock time to its calendar day. -/
def local_date (utcSeconds offsetSeconds : Int) : Int × Nat × Nat :=
  civilFromDays ((utcSeconds + offsetSeconds).fdiv 86400)

/-- Order status, the closed enumeration of the schema constraint
`CHECK (order_status IN (pending, paid, shipped, delivered, cancelled,
refunded))`, quoting elided (sql/01_schema.sql). -/
inductive OrderStatus where
  | pending
  | paid
  | shipped
  | delivered
  | cancelled
  | refunded
deriving DecidableEq

/-- A row of `dws_orders_analysis_view` as consumed by the aggregation
queries of `TimezoneService` (go/services/timezone_service.go): the
order fact fields, the merchant dimension fields and the derived
`local_date` / `local_hour` columns.  `local_date` is the day number of
the projected local calendar date, `amount` is in cents. -/
structure ViewRow where
  order_id : Nat
  merchant_id : Nat
  merchant_name : String
  timezone : String
  country : String
  amount : Int
  status : OrderStatus
  local_date : Int
  local_hour : Nat
deriving DecidableEq

/-- The `WHERE local_date = $1` filter shared by all four aggregation
queries of `TimezoneService.GetAnalysisData`. -/
def viewRowsOn (d : Int) (rows : List ViewRow) : List ViewRow :=
  rows.filter fun r => decide (r.local_date = d)

/-- The rows of one `GROUP BY` group: the date-filtered rows whose
grouping key equals `k`. -/
def groupOn {κ : Type} [DecidableEq κ] (key : ViewRow → κ)
    (l : List ViewRow) (k : κ) : List ViewRow :=
  l.filter fun r => decide (key r = k)

/-- Embedding of `TimezoneService.getOrderSummary` (go/services/timezone_service.go):
`SELECT COUNT(*), COALESCE(SUM(amount), 0) FROM dws_orders_analysis_view
WHERE local_date = $1`.  Note the query has no status filter. -/
def getOrderSummary (d : Int) (rows : List ViewRow) : Nat × Int :=
  ((viewRowsOn d rows).length, ((viewRowsOn d rows).map (·.amount)).sum)

/-- One group of `getTimezoneStats`: `timezone, country, COUNT(*),
COALESCE(SUM(amount),0), COALESCE(AVG(amount),0)`. -/
structure TimezoneOrderStats where
  timezone : String
  country : String
  orderCount : Nat
  totalAmount : Int
  avgAmount : ℚ
deriving DecidableEq

/-- Grouping key of `getTimezoneStats`: `GROUP BY timezone, country`. -/
def tzKey (r : ViewRow) : String × String := (r.timezone, r.country)

/-- Embedding of `TimezoneService.getTimezoneStats` (go/services/timezone_service.go):
per-(timezone, country) count, sum and average over the rows with the
requested `local_date`.  The query's final `ORDER BY total_amount DESC`
permutes the groups and is immaterial to the sums considered here, so
the groups are listed in first-encounter order of their keys. -/
def getTimezoneStats (d : Int) (rows : List ViewRow) :
    List TimezoneOrderStats :=
  (((viewRowsOn d rows).map tzKey).dedup).map fun k =>
    { timezone := k.1
      country := k.2
      orderCount := (groupOn tzKey (viewRowsOn d rows) k).length
      totalAmount := ((groupOn tzKey (viewRowsOn d rows) k).map (·.amount)).sum
      avgAmount := (((((groupOn tzKey (viewRowsOn d rows) k).map (·.amount)).sum : Int) : ℚ)) /
        ((groupOn tzKey (viewRowsOn d rows) k).length : ℚ) }

/-- One group of `getTopMerchants`: `merchant_id, merchant_name,
timezone, COUNT(*), COALESCE(SUM(amount),0), COALESCE(AVG(amount),0)`. -/
structure MerchantOrderStats where
  merchantId : Nat
  merchantName : String
  timezone : String
  orderCount : Nat
  totalAmount : Int
  avgAmount : ℚ
deriving DecidableEq

/-- Grouping key of `getTopMerchants`:
`GROUP BY merchant_id, merchant_name, timezone`. -/
def merchantKey (r : ViewRow) : Nat × String × String :=
  (r.merchant_id, r.merchant_name, r.timezone)

/-- The groups computed by `TimezoneService.getTopMerchants`
(go/services/timezone_service.go) before its `ORDER BY ... LIMIT`, in
first-encounter order of their keys. -/
def merchantGroups (d : Int) (rows : List ViewRow) :
    List MerchantOrderStats :=
  (((viewRowsOn d rows).map merchantKey).dedup).map fun k =>
    { merchantId := k.1
      merchantName := k.2.1
      timezone := k.2.2
      orderCount := (groupOn merchantKey (viewRowsOn d rows) k).length
      totalAmount := ((groupOn merchantKey (viewRowsOn d rows) k).map (·.amount)).sum
      avgAmount := (((((groupOn merchantKey (viewRowsOn d rows) k).map (·.amount)).sum : Int) : ℚ)) /
        ((groupOn merchantKey (viewRowsOn d rows) k).length : ℚ) }

/-- Result contract of `TimezoneService.getTopMerchants`
(go/services/timezone_service.go): `... GROUP BY merchant_id,
merchant_name, timezone ORDER BY total_amount DESC LIMIT 10`.  A result
list is valid when it is the 10-prefix of some arrangement of the groups
that is sorted by `total_amount` descending; SQL constrains ties in no
further way, so any such arrangement is a possible output. -/
def getTopMerchantsSpec (d : Int) (rows : List ViewRow)
    (out : List MerchantOrderStats) : Prop :=
  ∃ full : List MerchantOrderStats,
    full.Perm (merchantGroups d rows) ∧
    List.Pairwise (fun a b => b.totalAmount ≤ a.totalAmount) full ∧
    out = full.take 10

/-- The ordering property C5 asserts of top-N output: whenever two
groups carry the same summed amount, they appear in ascending order of
merchant identifier. -/
def tiesAscendingB : List MerchantOrderStats → Bool
  | [] => true
  | a :: rest =>
    (rest.all fun b =>
      !(a.totalAmount == b.totalAmount) || decide (a.merchantId < b.merchantId)) &&
    tiesAscendingB rest

/-- The daily-report filter of the analyst query examples
(sql/04_query_examples.sql, scenario 1): rows whose local date lies in
the requested range and whose status is in
`(paid, shipped, delivered)` (quoting elided). -/
def completedStatuses : List OrderStatus :=
  [OrderStatus.paid, OrderStatus.shipped, OrderStatus.delivered]

/-- Rows admitted by the daily-report query of
sql/04_query_examples.sql:
`WHERE order_date_local BETWEEN $lo AND $hi AND order_status IN
(paid, shipped, delivered)`, quoting elided. -/
def dailyReportRows (lo hi : Int) (rows : List ViewRow) : List ViewRow :=
  rows.filter fun r =>
    decide (lo ≤ r.local_date ∧ r.local_date ≤ hi ∧ r.status ∈ completedStatuses)

/-- The aggregation C4 describes, written from the claim's words for
comparison with `getOrderSummary`: count and sum over the records of the
requested date whose status lies in the caller-supplied allowed set. -/
def claimOrderSummary (allowed : List OrderStatus) (d : Int)
    (rows : List ViewRow) : Nat × Int :=
  let f := rows.filter fun r => decide (r.local_date = d ∧ r.status ∈ allowed)
  (f.length, (f.map (·.amount)).sum)

/-- Helper: a sum of zeros vanishes. -/
theorem sum_map_zero {κ : Type} (ks : List κ) :
    (ks.map fun _ => (0 : Int)).sum = 0 := by
  induction ks with
  | nil => rfl
  | cons k ks ih => simp [ih]

/-- Helper: summing a pointwise sum splits. -/
theorem sum_map_add {κ : Type} (g h : κ → Int) (ks : List κ) :
    (ks.map fun k => g k + h k).sum = (ks.map g).sum + (ks.map h).sum := by
  induction ks with
  | nil => rfl
  | cons k ks ih =>
    simp only [List.map_cons, List.sum_cons, ih]
    omega

/-- Helper: an indicator summed over a list avoiding its key vanishes. -/
theorem sum_map_ite_of_not_mem {κ : Type} [DecidableEq κ] (k₀ : κ) (v : Int)
    (ks : List κ) (h : k₀ ∉ ks) :
    (ks.map fun k => if k₀ = k then v else 0).sum = 0 := by
  induction ks with
  | nil => rfl
  | cons k ks ih =>
    have hne : k₀ ≠ k := fun he => h (by rw [he]; exact List.mem_cons_self k ks)
    have hnm : k₀ ∉ ks := fun hm => h (List.mem_cons_of_mem k hm)
    simp only [List.map_cons, List.sum_cons, if_neg hne, ih hnm]
    omega

/-- Helper: an indicator summed over a duplicate-free list containing its
key contributes exactly once. -/
theorem sum_map_ite_of_mem {κ : Type} [DecidableEq κ] (k₀ : κ) (v : Int)
    (ks : List κ) (hnd : ks.Nodup) (hmem : k₀ ∈ ks) :
    (ks.map fun k => if k₀ = k then v else 0).sum = v := by
  induction ks with
  | nil => cases hmem
  | cons k ks ih =>
    rcases List.nodup_cons.mp hnd with ⟨hk, hnds⟩
    rcases List.mem_cons.mp hmem with he | hm
    · have hnm : k₀ ∉ ks := by rw [he]; exact hk
      simp only [List.map_cons, List.sum_cons, if_pos he,
        sum_map_ite_of_not_mem k₀ v ks hnm]
      omega
    · have hne : k₀ ≠ k := fun he => hk (he ▸ hm)
      simp only [List.map_cons, List.sum_cons, if_neg hne, ih hnds hm]
      omega

/-- Helper: summing the per-group amount sums over any duplicate-free key
list covering the rows recovers the ungrouped amount sum. -/
theorem sum_groups_of_cover {κ : Type} [DecidableEq κ] (key : ViewRow → κ)
    (ks : List κ) (hnd : ks.Nodup) :
    ∀ l : List ViewRow, (∀ r ∈ l, key r ∈ ks) →
      (ks.map fun k => ((groupOn key l k).map (·.amount)).sum).sum =
        (l.map (·.amount)).sum := by
  intro l
  induction l with
  | nil =>
    intro _
    simp only [groupOn, List.filter_nil, List.map_nil, List.sum_nil]
    exact sum_map_zero ks
  | cons a l ih =>
    intro hcov
    have hstep : ∀ k : κ,
        ((groupOn key (a :: l) k).map (·.amount)).sum =
          (if key a = k then a.amount else 0) +
            ((groupOn key l k).map (·.amount)).sum := by
      intro k
      by_cases hk : key a = k
      · simp [groupOn, List.filter_cons, hk]
      · simp [groupOn, List.filter_cons, hk]
    calc (ks.map fun k => ((groupOn key (a :: l) k).map (·.amount)).sum).sum
        = (ks.map fun k =>
            (if key a = k then a.amount else 0) +
              ((groupOn key l k).map (·.amount)).sum).sum := by
          simp only [hstep]
      _ = (ks.map fun k => if key a = k then a.amount else 0).sum +
            (ks.map fun k => ((groupOn key l k).map (·.amount)).sum).sum :=
          sum_map_add _ _ ks
      _ = a.amount + (l.map (·.amount)).sum := by
          rw [sum_map_ite_of_mem (key a) a.amount ks hnd
              (hcov a (List.mem_cons_self a l)),
            ih fun r hr => hcov r (List.mem_cons_of_mem a hr)]
      _ = ((a :: l).map (·.amount)).sum := by
          simp

/-- One scanned row of the `CompareTimezones` query
(go/services/timezone_service.go): merchant name, timezone, the
formatted local time and date, the local hour, the local day-of-week
(0=Sunday, from which the query's `IN (0, 6)` weekend test is computed),
and the weekday name. -/
structure CmpRow where
  merchantName : String
  timezone : String
  localTime : String
  localDate : String
  hour : Nat
  dow : Nat
  dayOfWeek : String

/-- Go structure `models.TimezoneComparisonItem` (go/models/models.go).
`timeDifference` holds the integer the source formats into the
`TimeDifference` string. -/
structure TimezoneComparisonItem where
  merchantName : String
  timezone : String
  localTime : String
  localDate : String
  hour : Nat
  dayOfWeek : String
  isWeekend : Bool
  isBusinessHour : Bool
  timeDifference : Int
deriving DecidableEq

/-- Go structure `models.TimezoneStatistics` (go/models/models.go), with the zero
value `⟨0, 0, 0, 0⟩` when left unassigned. -/
structure TimezoneStatistics where
  businessHourCount : Nat
  weekendCount : Nat
  averageHour : ℚ
  timezoneSpread : Int
deriving DecidableEq

/-- Go structure `models.TimezoneComparison` (go/models/models.go). -/
structure TimezoneComparison where
  utcTime : String
  comparisons : List TimezoneComparisonItem
  statistics : TimezoneStatistics
deriving DecidableEq

/-- Error channel of `TimezoneService.CompareTimezones`: the source
returns an error only for an unparsable UTC time string or a failed
storage query; no error variant depends on the number of tenants. -/
inductive CmpError where
  | invalidTimeFormat
  | queryFailed
deriving DecidableEq

/-- Per-row accumulator of the `CompareTimezones` loop
(go/services/timezone_service.go): the items gathered so far plus
`businessHourCount`, `weekendCount`, `totalHours`, `minHour`, `maxHour`. -/
structure CmpAcc where
  items : List TimezoneComparisonItem
  businessHourCount : Nat
  weekendCount : Nat
  totalHours : ℚ
  minHour : Int
  maxHour : Int

/-- One iteration of the `CompareTimezones` row loop: build the item
(classifying with the query's inline weekend and business-hour
expressions and the wrap-normalized hour difference), then update the
running statistics. -/
def cmpStep (utcHour : Nat) (acc : CmpAcc) (r : CmpRow) : CmpAcc :=
  let item : TimezoneComparisonItem :=
    { merchantName := r.merchantName
      timezone := r.timezone
      localTime := r.localTime
      localDate := r.localDate
      hour := r.hour
      dayOfWeek := r.dayOfWeek
      isWeekend := compare_is_weekend r.dow
      isBusinessHour := compare_is_business_hour r.hour
      timeDifference := hourDiff (r.hour : Int) (utcHour : Int) }
  { items := acc.items ++ [item]
    businessHourCount :=
      if item.isBusinessHour then acc.businessHourCount + 1
      else acc.businessHourCount
    weekendCount :=
      if item.isWeekend then acc.weekendCount + 1 else acc.weekendCount
    totalHours := acc.totalHours + (r.hour : ℚ)
    minHour := if (r.hour : Int) < acc.minHour then (r.hour : Int) else acc.minHour
    maxHour := if (r.hour : Int) > acc.maxHour then (r.hour : Int) else acc.maxHour }

/-- Embedding of `TimezoneService.CompareTimezones` (go/services/timezone_service.go)
after its successful parse of the UTC time string (the parsed hour is
passed alongside the original string): fold the row loop from the
initial counters (`minHour = 24`, `maxHour = -1`), then fill the
statistics only when at least one row was seen — otherwise the zero
statistics value is returned unchanged, and in every case the result is
`ok`. -/
def compareTimezones (utcTimeStr : String) (utcHour : Nat)
    (rows : List CmpRow) : Except CmpError TimezoneComparison :=
  let acc := rows.foldl (cmpStep utcHour) ⟨[], 0, 0, 0, 24, -1⟩
  let comparison : TimezoneComparison :=
    { utcTime := utcTimeStr, comparisons := acc.items,
      statistics := ⟨0, 0, 0, 0⟩ }
  if 0 < acc.items.length then
    Except.ok { comparison with statistics :=
      { businessHourCount := acc.businessHourCount
        weekendCount := acc.weekendCount
        averageHour := acc.totalHours / (acc.items.length : ℚ)
        timezoneSpread := acc.maxHour - acc.minHour } }
  else Except.ok comparison

/-- Go structure `models.NullTime` (go/models/models.go): a time value plus a
validity flag.  The embedding is generic in the payload type `T`; the Go
code stores a `time.Time` there and delegates its JSON encoding to the
standard library, which the theorems take as parameters. -/
structure NullTime (T : Type) where
  time : T
  valid : Bool

/-- The JSON text of the literal `null`. -/
def nullLit : String := "null"

/-- Embedding of `NullTime.MarshalJSON` (go/models/models.go): an invalid value
marshals to the literal `null`, a valid one to the payload's own JSON
encoding `enc`. -/
def NullTime.marshalJSON {T : Type} (enc : T → String) (nt : NullTime T) :
    String :=
  if nt.valid then enc nt.time else nullLit

/-- Embedding of `NullTime.UnmarshalJSON` (go/models/models.go), as a transformer of
the receiver: on `null` it clears the flag and leaves the stored time
untouched; otherwise it delegates to the payload decoder `dec` (`none`
models a decoding error) and sets the flag to the decoder's success.
The returned `Bool` is the success of the call (`err == nil`). -/
def NullTime.unmarshalJSON {T : Type} (dec : String → Option T)
    (nt : NullTime T) (data : String) : NullTime T × Bool :=
  if data = nullLit then ({ nt with valid := false }, true)
  else
    match dec data with
    | some t => (⟨t, true⟩, true)
    | none => ({ nt with valid := false }, false)

/-- One scanned row of the `GetTimezoneDemo` query
(go/services/timezone_service.go): timezone, country, city, the
formatted local time and date, and the `TO_CHAR` TZ-format offset
string. -/
structure DemoRow where
  timezone : String
  country : String
  city : String
  localTime : String
  localDate : String
  offset : String

/-- Go structure `models.TimezoneConversion` (go/models/models.go). -/
structure TimezoneConversion where
  timezone : String
  localTime : String
  localDate : String
  offset : String
  country : String
  city : String
  isNextDay : Bool
  isPrevDay : Bool

/-- Go structure `models.TimezoneDemoSummary` (go/models/models.go). -/
structure TimezoneDemoSummary where
  totalTimezones : Nat
  nextDayCount : Nat
  sameDayCount : Nat
  prevDayCount : Nat
  minOffset : Int
  maxOffset : Int

/-- Go structure `models.TimezoneDemo` (go/models/models.go). -/
structure TimezoneDemo where
  utcTime : String
  description : String
  timezones : List TimezoneConversion
  summary : TimezoneDemoSummary

/-- Embedding of `parseTimezoneOffset` (go/services/timezone_service.go): reject
strings shorter than three characters, strip a leading sign, then read
the first two remaining characters as a decimal hour count; `none`
models the error return. -/
def parseTimezoneOffset (offset : String) : Option Int :=
  if offset.data.length < 3 then none
  else
    let signed : Int × List Char :=
      match offset.data with
      | '-' :: rest => (-1, rest)
      | '+' :: rest => (1, rest)
      | cs => (1, cs)
    match signed.2 with
    | c₁ :: c₂ :: _ =>
      if c₁.isDigit && c₂.isDigit then
        some (signed.1 * (((c₁.toNat - 48) * 10 + (c₂.toNat - 48) : Nat) : Int))
      else none
    | _ => none

/-- Loop accumulator of `GetTimezoneDemo`
(go/services/timezone_service.go): the conversions gathered so far, the
three day-boundary counters and the running offset extrema. -/
structure DemoAcc where
  timezones : List TimezoneConversion
  nextDayCount : Nat
  sameDayCount : Nat
  prevDayCount : Nat
  minOffset : Int
  maxOffset : Int

/-- Offset bookkeeping and append at the end of one `GetTimezoneDemo`
iteration: update the offset extrema when the offset string parses, then
append the finished conversion. -/
def demoFinish (acc : DemoAcc) (conv : TimezoneConversion) (r : DemoRow) :
    DemoAcc :=
  let acc' :=
    match parseTimezoneOffset r.offset with
    | some oh =>
      { acc with
        minOffset := if oh < acc.minOffset then oh else acc.minOffset
        maxOffset := if acc.maxOffset < oh then oh else acc.maxOffset }
    | none => acc
  { acc' with timezones := acc'.timezones ++ [conv] }

/-- One iteration of the `GetTimezoneDemo` row loop: build the
conversion with both day flags clear, then compare the formatted local
date against the formatted UTC date — strictly greater marks `IsNextDay`,
strictly smaller marks `IsPrevDay`, equality neither — incrementing
exactly the matching counter. -/
def demoStep (utcDate : String) (acc : DemoAcc) (r : DemoRow) : DemoAcc :=
  let conv : TimezoneConversion :=
    { timezone := r.timezone
      localTime := r.localTime
      localDate := r.localDate
      offset := r.offset
      country := r.country
      city := r.city
      isNextDay := false
      isPrevDay := false }
  if utcDate < r.localDate then
    demoFinish { acc with nextDayCount := acc.nextDayCount + 1 }
      { conv with isNextDay := true } r
  else if r.localDate < utcDate then
    demoFinish { acc with prevDayCount := acc.prevDayCount + 1 }
      { conv with isPrevDay := true } r
  else
    demoFinish { acc with sameDayCount := acc.sameDayCount + 1 } conv r

/-- The fixed demonstration instant of `GetTimezoneDemo`:
`time.Date(2024, 8, 19, 0, 0, 0, 0, time.UTC)` formatted as a date. -/
def demoUTCDate : String := "2024-08-19"

/-- The same instant formatted as RFC 3339. -/
def demoUTCTimeStr : String := "2024-08-19T00:00:00Z"

/-- Embedding of `TimezoneService.GetTimezoneDemo`
(go/services/timezone_service.go): fold the row loop from empty
counters (`minOffset = 24`, `maxOffset = -24`), then assemble the
summary, whose `TotalTimezones` is the length of the gathered
conversion list. -/
def getTimezoneDemo (rows : List DemoRow) : TimezoneDemo :=
  let acc := rows.foldl (demoStep demoUTCDate) ⟨[], 0, 0, 0, 24, -24⟩
  { utcTime := demoUTCTimeStr
    description := "演示同一UTC时间在全球不同时区的本地时间表现"
    timezones := acc.timezones
    summary :=
      { totalTimezones := acc.timezones.length
        nextDayCount := acc.nextDayCount
        sameDayCount := acc.sameDayCount
        prevDayCount := acc.prevDayCount
        minOffset := acc.minOffset
        maxOffset := acc.maxOffset } }

/-- The UTC instant `2024-08-19T23:30:00Z` of the date-boundary
scenario, in seconds since the epoch. -/
def anchorUTC : Int := daysFromCivil 2024 8 19 * 86400 + (23 * 3600 + 30 * 60)

/-- Claim C1: for every record and every consumer of classification,
`is_business_hour` is true exactly when the local day-of-week is 1..5
and the local hour is in 9..18, and the analysis view and
`CompareTimezones` classify every (day-of-week, hour) pair identically.
The analysis view does implement that rule, but the inline SQL of
`CompareTimezones` tests only `hour BETWEEN 9 AND 17` with no
day-of-week condition, so the two consumers disagree: Monday 18:00 is a
business hour for the view and not for `CompareTimezones`, while Sunday
10:00 is a weekend non-business hour for the view yet a business hour
for `CompareTimezones`. -/
theorem c1_business_hour_consumers_disagree :
    is_business_hour 1 18 = true ∧ compare_is_business_hour 18 = false ∧
    is_weekend 0 = true ∧ is_business_hour 0 10 = false ∧
    compare_is_business_hour 10 = true := by
  decide

/-- Claim C2, counterexample: the claim says the reported hour
difference lies in the half-open interval (−12, +12] and that −12 is
never reported, but `hourDiff` maps a local hour 0 against UTC hour 12
to exactly −12 (its wrap condition is strict: only differences below
−12 are wrapped); a raw difference of 13 does wrap to −11. -/
theorem c2_minus_twelve_reported :
    hourDiff 0 12 = -12 ∧ hourDiff 13 0 = -11 := by
  decide

/-- Claim C2, amended: for local and UTC hours in 0..23 the reported
difference lies in the closed interval [−12, +12] — a raw difference of
13 becomes −11, but a raw difference of −12 is reported as −12. -/
theorem c2_hour_difference_range :
    ∀ h u : Int, 0 ≤ h → h ≤ 23 → 0 ≤ u → u ≤ 23 →
      -12 ≤ hourDiff h u ∧ hourDiff h u ≤ 12 ∧
        (h - u = 13 → hourDiff h u = -11) := by
  intro h u h0 h1 u0 u1
  simp only [hourDiff]
  split_ifs <;> omega

/-- Witness for `c2_hour_difference_range` at the wrap boundary
(local hour 13, UTC hour 0). -/
theorem c2_hour_difference_range_witness :
    -12 ≤ hourDiff 13 0 ∧ hourDiff 13 0 ≤ 12 ∧ hourDiff 13 0 = -11 := by
  have h := c2_hour_difference_range 13 0 (by decide) (by decide)
    (by decide) (by decide)
  exact ⟨h.1, h.2.1, h.2.2 (by decide)⟩

/-- Claim C3, counterexample: the claim says `CompareTimezones` with an
empty tenant set returns an explicit `EmptyTenantSet` error and never a
comparison with silently zeroed summary statistics, but the code has no
such error: with zero rows it succeeds with an empty comparison list and
the zero-valued statistics record. -/
theorem c3_empty_tenants_zeroed_summary :
    compareTimezones demoUTCTimeStr 0 [] =
      Except.ok
        { utcTime := demoUTCTimeStr, comparisons := [],
          statistics := ⟨0, 0, 0, 0⟩ } := rfl

/-- Claim C3, amended: `CompareTimezones` called with an empty tenant
set succeeds for every parsed instant, returning a comparison with an
empty comparison list and zero-valued summary statistics — the Go zero
value left by the skipped `totalCount > 0` branch — rather than any
explicit error. -/
theorem c3_empty_tenants_ok :
    ∀ (s : String) (u : Nat),
      compareTimezones s u [] =
        Except.ok
          { utcTime := s, comparisons := [], statistics := ⟨0, 0, 0, 0⟩ } :=
  fun _ _ => rfl

/-- Claim C6: `local_date` is the calendar date of the projected local
wall-clock time, not of the UTC instant: projecting
`2024-08-19T23:30:00Z` at offset UTC+9 yields 2024-08-20, and the same
instant at offset UTC−5 yields 2024-08-19. -/
theorem c6_local_date_boundary :
    local_date anchorUTC (9 * 3600) = (2024, 8, 20) ∧
    local_date anchorUTC (-(5 * 3600)) = (2024, 8, 19) := by
  decide

/-- Claim C7: under the analysis view's classification (the default
policy: weekend set {0, 6}, business weekdays 1..5), `is_weekend` and
`is_business_hour` are never both true, for every day-of-week and hour. -/
theorem c7_weekend_business_disjoint :
    ∀ dow hour : Nat, (is_weekend dow && is_business_hour dow hour) = false := by
  intro dow hour
  simp only [is_weekend, is_business_hour]
  rcases Decidable.em (dow = 0 ∨ dow = 6) with hw | hw
  · have hnb : ¬((1 ≤ dow ∧ dow ≤ 5) ∧ (9 ≤ hour ∧ hour ≤ 18)) := by omega
    rw [decide_eq_false hnb, Bool.and_false]
  · rw [decide_eq_false hw, Bool.false_and]

/-- Claim C8: summing `sum(amount)` across all groups of an aggregation
grouped by one dimension equals the ungrouped total over the same
records — the per-(timezone, country) totals of `getTimezoneStats`, and
likewise the per-merchant totals of the `getTopMerchants` grouping, add up
exactly to the day's `TotalAmount` from `getOrderSummary` — and empty
input yields an empty group set with no error. -/
theorem c8_group_sum_identity :
    ∀ (d : Int) (rows : List ViewRow),
      ((getTimezoneStats d rows).map (·.totalAmount)).sum =
        (getOrderSummary d rows).2 ∧
      ((merchantGroups d rows).map (·.totalAmount)).sum =
        (getOrderSummary d rows).2 ∧
      getTimezoneStats d [] = [] ∧ getOrderSummary d [] = (0, 0) := by
  intro d rows
  refine ⟨?_, ?_, rfl, rfl⟩
  · unfold getTimezoneStats getOrderSummary
    rw [List.map_map]
    exact sum_groups_of_cover tzKey _ (List.nodup_dedup _) (viewRowsOn d rows)
      fun r hr => List.mem_dedup.mpr (List.mem_map_of_mem tzKey hr)
  · unfold merchantGroups getOrderSummary
    rw [List.map_map]
    exact sum_groups_of_cover merchantKey _ (List.nodup_dedup _)
      (viewRowsOn d rows)
      fun r hr => List.mem_dedup.mpr (List.mem_map_of_mem merchantKey hr)

/-- Day number of the local date 2024-08-19 used by the concrete
aggregation inputs. -/
def d0 : Int := 19954

/-- A cancelled order on 2024-08-19 — its status is outside the
completed set. -/
def cancRow : ViewRow :=
  { order_id := 3, merchant_id := 1, merchant_name := "A", timezone := "T1",
    country := "C", amount := 500, status := OrderStatus.cancelled,
    local_date := 19954, local_hour := 12 }

/-- A paid order on 2024-08-19. -/
def paidRow : ViewRow :=
  { order_id := 4, merchant_id := 1, merchant_name := "A", timezone := "T1",
    country := "C", amount := 700, status := OrderStatus.paid,
    local_date := 19954, local_hour := 9 }

/-- Claim C4, counterexample: the claim says records with a status
outside the allowed completed set contribute to no group, but
`getOrderSummary` has no status filter: a single cancelled record is
counted and summed, whereas the claim's own aggregation
(`claimOrderSummary`) excludes it. -/
theorem c4_status_filter_counterexample :
    getOrderSummary d0 [cancRow] = (1, 500) ∧
    claimOrderSummary completedStatuses d0 [cancRow] = (0, 0) := by
  constructor <;> rfl

/-- Claim C4, amended: the analyst-facing daily-report query of the SQL
examples does include only records whose status is in
`{paid, shipped, delivered}`, but the Go service's aggregation
(`getOrderSummary` and the other `GetAnalysisData` queries) applies no
status filter: a record contributes to the day's count and sum exactly
when its `local_date` matches, whatever its status. -/
theorem c4_service_has_no_status_filter :
    (∀ (lo hi : Int) (rows : List ViewRow) (r : ViewRow),
        r ∈ dailyReportRows lo hi rows → r.status ∈ completedStatuses) ∧
    (∀ (d : Int) (r : ViewRow) (rows : List ViewRow), r.local_date = d →
        getOrderSummary d (r :: rows) =
          ((getOrderSummary d rows).1 + 1,
            r.amount + (getOrderSummary d rows).2)) := by
  constructor
  · intro lo hi rows r hr
    simp only [dailyReportRows, List.mem_filter, decide_eq_true_eq] at hr
    exact hr.2.2.2
  · intro d r rows hd
    unfold getOrderSummary viewRowsOn
    rw [List.filter_cons]
    simp [hd]

/-- Witness for `c4_service_has_no_status_filter`: a paid row passes the
daily-report filter with a completed status, and the cancelled row is
counted by `getOrderSummary` on its date. -/
theorem c4_service_has_no_status_filter_witness :
    paidRow.status ∈ completedStatuses ∧
    getOrderSummary d0 [cancRow] =
      ((getOrderSummary d0 []).1 + 1,
        cancRow.amount + (getOrderSummary d0 []).2) :=
  ⟨c4_service_has_no_status_filter.1 19954 19954 [paidRow] paidRow (by decide),
    c4_service_has_no_status_filter.2 d0 cancRow [] rfl⟩

/-- An order of merchant 1 on 2024-08-19. -/
def row1 : ViewRow :=
  { order_id := 1, merchant_id := 1, merchant_name := "A", timezone := "T1",
    country := "C", amount := 1000, status := OrderStatus.paid,
    local_date := 19954, local_hour := 10 }

/-- An order of merchant 2 on the same date for the same amount. -/
def row2 : ViewRow :=
  { order_id := 2, merchant_id := 2, merchant_name := "B", timezone := "T2",
    country := "C", amount := 1000, status := OrderStatus.paid,
    local_date := 19954, local_hour := 11 }

/-- Two equal-sum merchants as top-merchant input. -/
def rows0 : List ViewRow := [row1, row2]

/-- The merchant-1 group of `rows0`. -/
def stat1 : MerchantOrderStats :=
  { merchantId := 1, merchantName := "A", timezone := "T1",
    orderCount := 1, totalAmount := 1000,
    avgAmount := ((1000 : Int) : ℚ) / ((1 : Nat) : ℚ) }

/-- The merchant-2 group of `rows0`. -/
def stat2 : MerchantOrderStats :=
  { merchantId := 2, merchantName := "B", timezone := "T2",
    orderCount := 1, totalAmount := 1000,
    avgAmount := ((1000 : Int) : ℚ) / ((1 : Nat) : ℚ) }

/-- An ordering of the two equal-sum groups with the larger merchant id
first. -/
def outBad : List MerchantOrderStats := [stat2, stat1]

/-- The groups of `rows0` on 2024-08-19. -/
theorem merchantGroups_rows0 : merchantGroups d0 rows0 = [stat1, stat2] := rfl

/-- The list `outBad` is a possible result of the `getTopMerchants` query for
`rows0`: it is sorted by `total_amount` descending (the two sums are
equal) and `ORDER BY total_amount DESC LIMIT 10` constrains it no
further. -/
theorem topSpec_rows0_outBad : getTopMerchantsSpec d0 rows0 outBad := by
  refine ⟨outBad, ?_, ?_, rfl⟩
  · rw [merchantGroups_rows0]
    exact List.Perm.swap stat1 stat2 []
  · refine List.Pairwise.cons ?_ ?_
    · intro b hb
      rcases List.mem_singleton.mp hb with rfl
      decide
    · simp

/-- Claim C5, counterexample: the claim says equal-sum tenants appear in
ascending order of tenant identifier in every run, but the
`getTopMerchants` query orders only by `total_amount DESC` with no
tie-break, so the output `outBad` — merchant 2 before merchant 1 at
equal sums — satisfies the query's ordering contract while violating
the ascending-identifier property. -/
theorem c5_tie_order_counterexample :
    getTopMerchantsSpec d0 rows0 outBad ∧ tiesAscendingB outBad = false :=
  ⟨topSpec_rows0_outBad, by decide⟩

/-- Claim C5, amended: `getTopMerchants` output is ordered by
`sum(amount)` descending, but the query specifies no tie-break, so the
relative order of tenants with equal summed amount is not determined
(in particular ascending tenant identifier is not guaranteed). -/
theorem c5_top_merchants_sorted :
    ∀ (d : Int) (rows : List ViewRow) (out : List MerchantOrderStats),
      getTopMerchantsSpec d rows out →
      List.Pairwise (fun a b => b.totalAmount ≤ a.totalAmount) out := by
  rintro d rows out ⟨full, _, hsort, rfl⟩
  exact hsort.sublist (List.take_sublist 10 full)

/-- Witness for `c5_top_merchants_sorted` at the concrete two-merchant
input. -/
theorem c5_top_merchants_sorted_witness :
    List.Pairwise (fun a b => b.totalAmount ≤ a.totalAmount) outBad :=
  c5_top_merchants_sorted d0 rows0 outBad topSpec_rows0_outBad

/-- Payload codec for the `NullTime` witness: the payload type is `Unit`,
encoded as the fixed non-`null` text `"t"`. -/
def tLit : String := "t"

/-- Witness encoder. -/
def unitEnc : Unit → String := fun _ => tLit

/-- Witness decoder, inverse of `unitEnc`. -/
def unitDec : String → Option Unit := fun s => if s = tLit then some () else none

/-- A valid `NullTime` value. -/
def ntValid : NullTime Unit := ⟨(), true⟩

/-- An invalid `NullTime` value. -/
def ntInvalid : NullTime Unit := ⟨(), false⟩

/-- A fresh unmarshalling receiver. -/
def recvU : NullTime Unit := ⟨(), false⟩

/-- Claim C9: `NullTime` JSON serialization round-trips.  For any
payload codec that round-trips and never produces the literal `null`
(both hold of Go's `time.Time` JSON encoding, which always emits a
quoted string), unmarshalling the bytes produced by `marshalJSON` yields
a `NullTime` with the same `valid` flag and an equal time whenever
`valid` is true; an invalid value marshals to the literal `null`, and
`null` unmarshals back to an invalid value. -/
theorem c9_nulltime_roundtrip :
    ∀ (T : Type) (enc : T → String) (dec : String → Option T),
      (∀ t, dec (enc t) = some t) → (∀ t, enc t ≠ nullLit) →
      ∀ (nt recv : NullTime T),
        ((NullTime.unmarshalJSON dec recv (NullTime.marshalJSON enc nt)).1.valid
            = nt.valid ∧
          (nt.valid = true →
            (NullTime.unmarshalJSON dec recv (NullTime.marshalJSON enc nt)).1.time
              = nt.time) ∧
          (nt.valid = false → NullTime.marshalJSON enc nt = nullLit) ∧
          (NullTime.unmarshalJSON dec recv nullLit).1.valid = false) := by
  intro T enc dec h1 h2 nt recv
  have hnull : (NullTime.unmarshalJSON dec recv nullLit).1.valid = false := by
    simp [NullTime.unmarshalJSON]
  cases hv : nt.valid with
  | false =>
    have hm : NullTime.marshalJSON enc nt = nullLit := by
      simp [NullTime.marshalJSON, hv]
    refine ⟨?_, ?_, fun _ => hm, hnull⟩
    · rw [hm]; exact hnull
    · intro hvt; exact Bool.noConfusion hvt
  | true =>
    have hm : NullTime.marshalJSON enc nt = enc nt.time := by
      simp [NullTime.marshalJSON, hv]
    have hu : NullTime.unmarshalJSON dec recv (enc nt.time) =
        (⟨nt.time, true⟩, true) := by
      simp [NullTime.unmarshalJSON, h2 nt.time, h1 nt.time]
    refine ⟨?_, fun _ => ?_, fun hvf => ?_, hnull⟩
    · rw [hm, hu]
    · rw [hm, hu]
    · exact Bool.noConfusion hvf

/-- Witness for `c9_nulltime_roundtrip` with the concrete `Unit` codec:
a valid value round-trips with its flag and time intact, an invalid
value marshals to `null`, and `null` unmarshals to invalid. -/
theorem c9_nulltime_roundtrip_witness :
    (NullTime.unmarshalJSON unitDec recvU
        (NullTime.marshalJSON unitEnc ntValid)).1.valid = ntValid.valid ∧
    (NullTime.unmarshalJSON unitDec recvU
        (NullTime.marshalJSON unitEnc ntValid)).1.time = ntValid.time ∧
    NullTime.marshalJSON unitEnc ntInvalid = nullLit ∧
    (NullTime.unmarshalJSON unitDec recvU nullLit).1.valid = false := by
  have h1 : ∀ t : Unit, unitDec (unitEnc t) = some t := fun _ => rfl
  have h2 : ∀ t : Unit, unitEnc t ≠ nullLit := fun _ => by
    unfold unitEnc
    decide
  have h := c9_nulltime_roundtrip Unit unitEnc unitDec h1 h2
  exact ⟨(h ntValid recvU).1, (h ntValid recvU).2.1 rfl,
    (h ntInvalid recvU).2.2.1 rfl, (h ntValid recvU).2.2.2⟩

/-- Invariant of the `GetTimezoneDemo` loop: the three counters
partition the gathered conversions, and no conversion carries both day
flags. -/
def demoInv (acc : DemoAcc) : Prop :=
  acc.timezones.length =
    acc.nextDayCount + acc.sameDayCount + acc.prevDayCount ∧
  (acc.timezones.all fun c => !(c.isNextDay && c.isPrevDay)) = true

/-- One `GetTimezoneDemo` iteration preserves the invariant: each row
increments exactly one counter and appends exactly one conversion, whose
day flags are never both set. -/
theorem demoStep_inv (utcDate : String) (acc : DemoAcc) (r : DemoRow)
    (h : demoInv acc) : demoInv (demoStep utcDate acc r) := by
  rcases h with ⟨hlen, hall⟩
  unfold demoStep demoFinish
  split_ifs with h1 h2 <;>
    cases hpo : parseTimezoneOffset r.offset <;>
      simp only [demoInv, hpo, List.all_append, List.length_append,
        List.all_cons, List.all_nil, Bool.and_true, hall, hlen,
        Bool.true_and, List.length_cons, List.length_nil] <;>
      simp <;> omega

/-- Claim C10: the timezone-demo summary partitions the tenants — for
every result of `GetTimezoneDemo`, `NextDayCount + SameDayCount +
PrevDayCount` equals `TotalTimezones`, and no single conversion has both
`IsNextDay` and `IsPrevDay` set. -/
theorem c10_demo_partition :
    ∀ rows : List DemoRow,
      (getTimezoneDemo rows).summary.nextDayCount +
          (getTimezoneDemo rows).summary.sameDayCount +
          (getTimezoneDemo rows).summary.prevDayCount =
        (getTimezoneDemo rows).summary.totalTimezones ∧
      ((getTimezoneDemo rows).timezones.all
          fun c => !(c.isNextDay && c.isPrevDay)) = true := by
  intro rows
  have key : ∀ (l : List DemoRow) (acc : DemoAcc), demoInv acc →
      demoInv (l.foldl (demoStep demoUTCDate) acc) := by
    intro l
    induction l with
    | nil => intro acc h; exact h
    | cons r l ih => intro acc h; exact ih _ (demoStep_inv demoUTCDate acc r h)
  have h := key rows ⟨[], 0, 0, 0, 24, -24⟩ ⟨rfl, rfl⟩
  rcases h with ⟨hlen, hall⟩
  exact ⟨hlen.symm, hall⟩
